import Mathlib

/-!
Verification of the object-lifecycle and dependency-resolution kernel of a
Yii2-inspired Node MVC framework: the property-visibility registry of
CoreObject, the event and behavior system of Component, the DI Container,
the ServiceLocator, and Module route resolution.

The JavaScript/TypeScript sources are shallowly embedded: mutable object
state becomes explicit state records threaded through functions, thrown
exceptions become `Except` errors (an error result models a throw; the
post-throw state is not observed anywhere in this development), and the
boundary collaborators (the namespace loader and the file system) become an
explicit `Env` record of oracles.
-/

set_option maxHeartbeats 1000000

namespace FwKernel

/-- JavaScript runtime values, as far as the kernel manipulates them.
`closure` is a function value identified by reference; `inst` is an object
constructed from a loadable class, recording the class namespace and the
constructor arguments; `hostObj` stands for host objects (such as a module
instance passed as a constructor argument) whose internals the kernel never
inspects. -/
inductive JVal where
  | undef
  | null
  | bool (b : Bool)
  | num (n : Int)
  | str (s : String)
  | closure (id : Nat)
  | obj (fields : List (String × JVal))
  | inst (className : String) (args : List JVal)
  | hostObj (tag : String)
deriving Repr

/-- Property names: JS allows string and symbol keys. Symbols are identified
by reference, modelled as a numeric identity. -/
inductive PropName where
  | str (s : String)
  | sym (id : Nat)
deriving Repr, DecidableEq

/-- Lookup in a JS-object-like association list (keys are unique). -/
def lookupKey {κ α : Type} [DecidableEq κ] (k : κ) : List (κ × α) → Option α
  | [] => none
  | (k', v) :: rest => if k' = k then some v else lookupKey k rest

/-- The JS `in` / `Op.has` test on an object modelled as an association list. -/
def hasKey {κ α : Type} [DecidableEq κ] (k : κ) (l : List (κ × α)) : Bool :=
  (lookupKey k l).isSome

/-- JS property assignment `o[k] = v`: overwrite in place if the key exists
(keeping insertion order), otherwise append. -/
def setKey {κ α : Type} [DecidableEq κ] (k : κ) (v : α) : List (κ × α) → List (κ × α)
  | [] => [(k, v)]
  | (k', w) :: rest => if k' = k then (k, v) :: rest else (k', w) :: setKey k v rest

/-- JS `delete o[k]`. -/
def removeKey {κ α : Type} [DecidableEq κ] (k : κ) : List (κ × α) → List (κ × α)
  | [] => []
  | (k', w) :: rest => if k' = k then rest else (k', w) :: removeKey k rest

/-- JS truthiness (the kernel never applies it to NaN). -/
def jsTruthy : JVal → Bool
  | .undef => false
  | .null => false
  | .bool b => b
  | .num n => n ≠ 0
  | .str s => s ≠ ""
  | _ => true

/-- `ramda` `R_is(String, v)`. -/
def JVal.isStr : JVal → Bool
  | .str _ => true
  | _ => false

/-- `ramda` `R_is(Object, v)`: objects, class instances and functions; not
primitives and not null. -/
def jsIsObject : JVal → Bool
  | .obj _ => true
  | .inst _ _ => true
  | .closure _ => true
  | .hostObj _ => true
  | _ => false

/-- Number of own enumerable keys, as `Object.keys(v).length` sees it:
plain objects expose their fields; class instances expose their own data
properties (CoreObject always installs `registry`, Component adds `_events`
and `_behaviors`, so instances are never key-free); functions, numbers and
booleans have no own enumerable keys; `Object.keys` on a string yields one
key per character. -/
def jsKeysCount : JVal → Nat
  | .obj fields => fields.length
  | .inst _ _ => 1
  | .hostObj _ => 1
  | .str s => s.length
  | _ => 0

/-- `CallbackHelper.isActualFunction`: functions of any flavour. -/
def isActualFunction : JVal → Bool
  | .closure _ => true
  | _ => false

/-- `CallbackHelper.isActualValue`: not a function and not a Promise
(promises never reach the places this predicate guards in this model). -/
def isActualValue (v : JVal) : Bool :=
  !(isActualFunction v)

/-- Failure kinds thrown by the kernel (section 7 of the spec), plus
`outOfFuel`, an artifact of the shallow embedding that models divergence of
cyclically-aliased container definitions; it is never reached by any theorem
in this file. -/
inductive Exc where
  | unknownProperty
  | invalidCall
  | invalidConfig
  | invalidArgument
  | notInstantiable
  | invalidRoute
  | outOfFuel
deriving Repr, DecidableEq

/-- `s.startsWith(p)`, computed on the character lists so that it reduces
definitionally (the built-in String operation is compiled through
well-founded recursion and does not). -/
def strStartsWith (s p : String) : Bool :=
  p.data.isPrefixOf s.data

/-- `s.substring(n)` / drop of the first `n` characters. -/
def strDrop (s : String) (n : Nat) : String :=
  ⟨s.data.drop n⟩

/-! ## CoreObject: the property-visibility registry

From `src/framework/base/CoreObject.ts` and the registry population code of
`BaseApp.configure` / `BaseApp.configureRegistry`. -/

/-- The visibility-tag strip of a configuration key: drop one leading
`-` or `+` marker if present. -/
def stripTag (s : String) : String :=
  if strStartsWith s "-" || strStartsWith s "+" then strDrop s 1 else s

/-- `BaseApp.configure`: bind configuration values onto the instance slots,
with the `-`/`+` visibility marker removed from each name. `Object.entries`
yields string keys only, so symbol-keyed configuration entries never reach
this loop (its symbol branch is dead code). -/
def configureSlots (slots : List (PropName × JVal)) (config : List (String × JVal)) :
    List (PropName × JVal) :=
  config.foldl (fun acc nv => setKey (PropName.str (stripTag nv.1)) nv.2 acc) slots

/-- The visibility tag `BaseApp.configureRegistry` derives from a key:
`-` gives read-only "r", `+` gives write-only "w", no marker gives "a". -/
def tagOfKey (name : String) : String :=
  if strStartsWith name "-" then "r" else if strStartsWith name "+" then "w" else "a"

/-- `BaseApp.configureRegistry`: record a visibility tag for every
configuration key (symbol branch dead, as in `configureSlots`). -/
def configureRegistry (registry : List (String × JVal)) (config : List (String × JVal)) :
    List (String × JVal) :=
  config.foldl (fun acc nv => setKey (stripTag nv.1) (JVal.str (tagOfKey nv.1)) acc) registry

/-- The observable state of a `CoreObject`: its own data slots (`this[name]`)
and the private visibility registry. Prototype members never carry registry
entries, so they are omitted from the `name in this` test. -/
structure CoreObjectState where
  slots : List (PropName × JVal)
  registry : List (String × JVal)
deriving Repr

/-- The `CoreObject` constructor on the base class (no `construct`/`init`
overrides): apply the configuration to slots and registry when it is
non-empty. -/
def CoreObject.new (config : List (String × JVal)) : CoreObjectState :=
  if config.isEmpty then ⟨[], []⟩
  else ⟨configureSlots [] config, configureRegistry [] config⟩

/-- Second conjunct of `hasProperty`:
`typeof name === "string" && !name.startsWith("__")`. -/
def isStringNotDunder : PropName → Bool
  | .str s => !strStartsWith s "__"
  | .sym _ => false

/-- `Op.has(this.registry, name)`; for a symbol the surrounding `&&` chain
has already failed, so the value is immaterial. -/
def registryHas (o : CoreObjectState) : PropName → Bool
  | .str s => hasKey s o.registry
  | .sym _ => false

/-- `this.registry[name]` (only reachable for string names). -/
def registryVal (o : CoreObjectState) : PropName → JVal
  | .str s => (lookupKey s o.registry).getD JVal.undef
  | .sym _ => JVal.undef

/-- `CoreObject.hasProperty`: the slot exists, the name is a string not
starting with a double underscore, the registry records it, and the registry
entry is an actual value (not a function or promise). -/
def CoreObject.hasProperty (o : CoreObjectState) (name : PropName) : Bool :=
  hasKey name o.slots && isStringNotDunder name && registryHas o name
    && isActualValue (registryVal o name)

/-- `["r", "a"].includes(tag)` on a registry entry. -/
def tagAllowsRead : JVal → Bool
  | .str s => s = "r" || s = "a"
  | _ => false

/-- `["w", "a"].includes(tag)` on a registry entry. -/
def tagAllowsWrite : JVal → Bool
  | .str s => s = "w" || s = "a"
  | _ => false

/-- `CoreObject.canGetProperty`: requires `hasProperty`; then symbols are
declared readable and strings need an "r" or "a" tag. -/
def CoreObject.canGetProperty (o : CoreObjectState) (name : PropName) : Bool :=
  if !CoreObject.hasProperty o name then false
  else match name with
    | .sym _ => true
    | .str _ => tagAllowsRead (registryVal o name)

/-- `CoreObject.canSetProperty`: requires `hasProperty`; then symbols are
declared writable and strings need a "w" or "a" tag. -/
def CoreObject.canSetProperty (o : CoreObjectState) (name : PropName) : Bool :=
  if !CoreObject.hasProperty o name then false
  else match name with
    | .sym _ => true
    | .str _ => tagAllowsWrite (registryVal o name)

/-- `CoreObject.get`: UnknownProperty unless `hasProperty`, InvalidCall
unless `canGetProperty`, otherwise return the slot. -/
def CoreObject.get (o : CoreObjectState) (name : PropName) : Except Exc JVal :=
  if !CoreObject.hasProperty o name then .error .unknownProperty
  else if !CoreObject.canGetProperty o name then .error .invalidCall
  else .ok ((lookupKey name o.slots).getD JVal.undef)

/-- `CoreObject.set`: UnknownProperty unless `hasProperty`, InvalidCall
unless `canSetProperty`, otherwise assign the slot. -/
def CoreObject.set (o : CoreObjectState) (name : PropName) (value : JVal) :
    Except Exc CoreObjectState :=
  if !CoreObject.hasProperty o name then .error .unknownProperty
  else if !CoreObject.canSetProperty o name then .error .invalidCall
  else .ok { o with slots := setKey name value o.slots }

/-- `CoreObject.unset`: UnknownProperty unless `hasProperty`; then the code
throws InvalidCall when the property CAN be set, and assigns null to the
slot when it cannot. -/
def CoreObject.unset (o : CoreObjectState) (name : PropName) :
    Except Exc CoreObjectState :=
  if !CoreObject.hasProperty o name then .error .unknownProperty
  else if CoreObject.canSetProperty o name then .error .invalidCall
  else .ok { o with slots := setKey name JVal.null o.slots }

/-! ## Association-list lemmas -/

theorem lookupKey_setKey_self {κ α : Type} [DecidableEq κ] (k : κ) (v : α)
    (l : List (κ × α)) : lookupKey k (setKey k v l) = some v := by
  induction l with
  | nil => simp [lookupKey, setKey]
  | cons hd tl ih =>
    by_cases h : hd.1 = k
    · simp [lookupKey, setKey, h]
    · simp [lookupKey, setKey, h, ih]

theorem lookupKey_setKey_of_ne {κ α : Type} [DecidableEq κ] {k' k : κ} (v : α)
    (l : List (κ × α)) (h : k' ≠ k) :
    lookupKey k (setKey k' v l) = lookupKey k l := by
  induction l with
  | nil => simp [lookupKey, setKey, h]
  | cons hd tl ih =>
    obtain ⟨a, b⟩ := hd
    have h2 : ¬(k = k') := fun hc => h hc.symm
    by_cases hh : a = k'
    · subst hh
      simp [lookupKey, setKey, h]
    · by_cases hk : a = k
      · simp [lookupKey, setKey, hh, hk, h2]
      · simp [lookupKey, setKey, hh, hk, ih]

/-! ## Lemmas on registry/slot population for the amended claim C5 -/

theorem configureSlots_lookup_frame (t : String) (cfg : List (String × JVal))
    (acc : List (PropName × JVal)) (h : ∀ p ∈ cfg, stripTag p.1 ≠ t) :
    lookupKey (PropName.str t) (configureSlots acc cfg)
      = lookupKey (PropName.str t) acc := by
  induction cfg generalizing acc with
  | nil => rfl
  | cons hd tl ih =>
    have hhd : stripTag hd.1 ≠ t := h hd (List.mem_cons_self hd tl)
    have hne : PropName.str (stripTag hd.1) ≠ PropName.str t := by
      intro hc; exact hhd (PropName.str.inj hc)
    calc lookupKey (PropName.str t) (configureSlots (setKey (PropName.str (stripTag hd.1)) hd.2 acc) tl)
        = lookupKey (PropName.str t) (setKey (PropName.str (stripTag hd.1)) hd.2 acc) :=
          ih _ (fun p hp => h p (List.mem_cons_of_mem hd hp))
      _ = lookupKey (PropName.str t) acc := lookupKey_setKey_of_ne _ _ hne

theorem configureSlots_lookup_unique (t k0 : String) (v : JVal)
    (cfg : List (String × JVal)) (acc : List (PropName × JVal))
    (hk : (k0, v) ∈ cfg) (hstrip : stripTag k0 = t)
    (hnodup : (cfg.map Prod.fst).Nodup)
    (honly : ∀ p ∈ cfg, stripTag p.1 = t → p.1 = k0) :
    lookupKey (PropName.str t) (configureSlots acc cfg) = some v := by
  induction cfg generalizing acc with
  | nil => simp at hk
  | cons hd tl ih =>
    obtain ⟨a, b⟩ := hd
    rcases List.mem_cons.mp hk with hhd | htl
    · -- the unique key is at the head; no later entry touches slot t
      injection hhd with ha hb
      subst ha; subst hb
      have htlnone : ∀ p ∈ tl, stripTag p.1 ≠ t := by
        intro p hp hc
        have h1 : p.1 = k0 := honly p (List.mem_cons_of_mem _ hp) hc
        have hk0tl : k0 ∈ tl.map Prod.fst := h1 ▸ List.mem_map_of_mem Prod.fst hp
        exact (List.nodup_cons.mp hnodup).1 hk0tl
      rw [show configureSlots acc ((k0, v) :: tl)
            = configureSlots (setKey (PropName.str (stripTag k0)) v acc) tl from rfl,
          configureSlots_lookup_frame t tl _ htlnone, hstrip]
      exact lookupKey_setKey_self _ _ _
    · -- the unique key is in the tail; the inductive hypothesis holds for
      -- any accumulator, in particular after the head write
      exact ih _ htl (List.nodup_cons.mp hnodup).2
        (fun p hp hc => honly p (List.mem_cons_of_mem _ hp) hc)

theorem configureRegistry_lookup_frame (t : String) (cfg : List (String × JVal))
    (acc : List (String × JVal)) (h : ∀ p ∈ cfg, stripTag p.1 ≠ t) :
    lookupKey t (configureRegistry acc cfg) = lookupKey t acc := by
  induction cfg generalizing acc with
  | nil => rfl
  | cons hd tl ih =>
    have hhd : stripTag hd.1 ≠ t := h hd (List.mem_cons_self hd tl)
    calc lookupKey t (configureRegistry (setKey (stripTag hd.1) (JVal.str (tagOfKey hd.1)) acc) tl)
        = lookupKey t (setKey (stripTag hd.1) (JVal.str (tagOfKey hd.1)) acc) :=
          ih _ (fun p hp => h p (List.mem_cons_of_mem hd hp))
      _ = lookupKey t acc := lookupKey_setKey_of_ne _ _ hhd

theorem configureRegistry_lookup_unique (t k0 : String) (v : JVal)
    (cfg : List (String × JVal)) (acc : List (String × JVal))
    (hk : (k0, v) ∈ cfg) (hstrip : stripTag k0 = t)
    (hnodup : (cfg.map Prod.fst).Nodup)
    (honly : ∀ p ∈ cfg, stripTag p.1 = t → p.1 = k0) :
    lookupKey t (configureRegistry acc cfg) = some (JVal.str (tagOfKey k0)) := by
  induction cfg generalizing acc with
  | nil => simp at hk
  | cons hd tl ih =>
    obtain ⟨a, b⟩ := hd
    rcases List.mem_cons.mp hk with hhd | htl
    · injection hhd with ha hb
      subst ha; subst hb
      have htlnone : ∀ p ∈ tl, stripTag p.1 ≠ t := by
        intro p hp hc
        have h1 : p.1 = k0 := honly p (List.mem_cons_of_mem _ hp) hc
        have hk0tl : k0 ∈ tl.map Prod.fst := h1 ▸ List.mem_map_of_mem Prod.fst hp
        exact (List.nodup_cons.mp hnodup).1 hk0tl
      rw [show configureRegistry acc ((k0, v) :: tl)
            = configureRegistry (setKey (stripTag k0) (JVal.str (tagOfKey k0)) acc) tl from rfl,
          configureRegistry_lookup_frame t tl _ htlnone, hstrip]
      exact lookupKey_setKey_self _ _ _
    · exact ih _ htl (List.nodup_cons.mp hnodup).2
        (fun p hp hc => honly p (List.mem_cons_of_mem _ hp) hc)

/-! ## Claims C4, C5, C10 -/

/-- A CoreObject whose storage has a symbol-keyed slot (the situation the
spec describes as "symbols bypass the visibility registry"). -/
def symSlotObject : CoreObjectState :=
  ⟨[(PropName.sym 0, JVal.num 5)], []⟩

/-- Claim C4: the spec says symbol-named properties bypass the visibility
registry and are always readable and writable. In the code, `hasProperty`
conjoins `typeof name === "string"`, so a symbol never passes it and both
`get` and `set` throw UnknownProperty; the symbol branches of
`canGetProperty`/`canSetProperty` are unreachable. This theorem evaluates
the embedded code at a symbol-keyed slot and exhibits the divergence. -/
theorem c4_symbol_access_throws_unknown :
    CoreObject.get symSlotObject (.sym 0) = .error .unknownProperty
    ∧ CoreObject.set symSlotObject (.sym 0) (JVal.num 7) = .error .unknownProperty
    ∧ CoreObject.hasProperty symSlotObject (.sym 0) = false
    ∧ CoreObject.canGetProperty symSlotObject (.sym 0) = false := by
  exact ⟨rfl, rfl, rfl, rfl⟩

/-- An object configured with a read-only key and a plain key of the same
stripped name: the later plain key overwrites the visibility tag. -/
def c5CounterObject : CoreObjectState :=
  CoreObject.new [("-p", JVal.num 1), ("p", JVal.num 2)]

/-- Claim C5 counterexample: for an object constructed with configuration
key "-p" (but also a later plain key "p"), `set("p", v)` succeeds instead of
failing with InvalidCall, because the later key re-tags the property
read-write. -/
theorem c5_counterexample :
    CoreObject.set c5CounterObject (.str "p") (JVal.num 3)
        = .ok ⟨[(PropName.str "p", JVal.num 3)], [("p", JVal.str "a")]⟩
    ∧ CoreObject.set c5CounterObject (.str "p") (JVal.num 3)
        ≠ .error .invalidCall := by
  have h1 : CoreObject.set c5CounterObject (.str "p") (JVal.num 3)
      = .ok ⟨[(PropName.str "p", JVal.num 3)], [("p", JVal.str "a")]⟩ := rfl
  exact ⟨h1, fun h => Except.noConfusion (h1.symm.trans h)⟩

/-- Claim C5 (amended): for every object constructed with a configuration
key "-p", provided "-p" is the only configuration key whose prefix-stripped
name is "p" (configuration keys are unique, as in any JS object):
`get("p")` returns the configured value and `set("p", w)` fails with
InvalidCall. -/
theorem c5_read_only_key (cfg : List (String × JVal)) (v : JVal)
    (hnodup : (cfg.map Prod.fst).Nodup)
    (hmem : ("-p", v) ∈ cfg)
    (honly : ∀ p ∈ cfg, stripTag p.1 = "p" → p.1 = "-p") :
    CoreObject.get (CoreObject.new cfg) (.str "p") = .ok v
    ∧ ∀ w, CoreObject.set (CoreObject.new cfg) (.str "p") w
        = .error .invalidCall := by
  have hne : cfg ≠ [] := by rintro rfl; simp at hmem
  have hnew : CoreObject.new cfg = ⟨configureSlots [] cfg, configureRegistry [] cfg⟩ := by
    cases cfg with
    | nil => exact absurd rfl hne
    | cons hd tl => rfl
  have hstrip : stripTag "-p" = "p" := rfl
  have hslot : lookupKey (PropName.str "p") (configureSlots [] cfg) = some v :=
    configureSlots_lookup_unique "p" "-p" v cfg [] hmem hstrip hnodup honly
  have hreg : lookupKey "p" (configureRegistry [] cfg) = some (JVal.str "r") :=
    configureRegistry_lookup_unique "p" "-p" v cfg [] hmem hstrip hnodup honly
  have hdund : isStringNotDunder (PropName.str "p") = true := rfl
  have hhas : CoreObject.hasProperty (CoreObject.new cfg) (.str "p") = true := by
    rw [hnew]
    simp [CoreObject.hasProperty, hasKey, hslot, hdund,
      registryHas, registryVal, hreg, isActualValue, isActualFunction]
  have hcanget : CoreObject.canGetProperty (CoreObject.new cfg) (.str "p") = true := by
    simp only [CoreObject.canGetProperty, hhas]
    rw [hnew]
    simp [registryVal, hreg, tagAllowsRead]
  have hcanset : CoreObject.canSetProperty (CoreObject.new cfg) (.str "p") = false := by
    simp only [CoreObject.canSetProperty, hhas]
    rw [hnew]
    simp [registryVal, hreg, tagAllowsWrite]
  constructor
  · simp only [CoreObject.get, hhas, hcanget, Bool.not_true, Bool.false_eq_true,
      if_false]
    rw [hnew]
    simp [hslot]
  · intro w
    simp [CoreObject.set, hhas, hcanset]

/-- Claim C5 witness: the amended statement at the concrete configuration
with the single key "-p". -/
theorem c5_read_only_key_witness :
    CoreObject.get (CoreObject.new [("-p", JVal.num 9)]) (.str "p") = .ok (JVal.num 9)
    ∧ CoreObject.set (CoreObject.new [("-p", JVal.num 9)]) (.str "p") (JVal.num 4)
        = .error .invalidCall := by
  have h := c5_read_only_key [("-p", JVal.num 9)] (JVal.num 9)
    (by simp) (by simp) (by intro p hp hc; simp at hp; rw [hp])
  exact ⟨h.1, h.2 (JVal.num 4)⟩

/-- Claim C10: `unset` on a CoreObject throws UnknownProperty for an
undefined property; for a defined property it throws InvalidCall exactly
when the property CAN be set, and assigns null to the slot when it cannot
(its guard is inverted relative to `set`). An error models a throw, which
leaves the stored slots unchanged. -/
theorem c10_unset_guard (o : CoreObjectState) (name : PropName) :
    (CoreObject.hasProperty o name = false →
      CoreObject.unset o name = .error .unknownProperty)
    ∧ (CoreObject.hasProperty o name = true →
       CoreObject.canSetProperty o name = true →
      CoreObject.unset o name = .error .invalidCall)
    ∧ (CoreObject.hasProperty o name = true →
       CoreObject.canSetProperty o name = false →
      CoreObject.unset o name = .ok { o with slots := setKey name JVal.null o.slots }) := by
  refine ⟨fun h => ?_, fun h1 h2 => ?_, fun h1 h2 => ?_⟩
  · simp [CoreObject.unset, h]
  · simp [CoreObject.unset, h1, h2]
  · simp [CoreObject.unset, h1, h2]

/-- Claim C10 witness: the three branches at concrete objects — a read-only
property is nulled, a read-write property raises InvalidCall, an undefined
property raises UnknownProperty. -/
theorem c10_unset_guard_witness :
    CoreObject.unset (CoreObject.new [("-p", JVal.num 1)]) (.str "p")
        = .ok { CoreObject.new [("-p", JVal.num 1)] with
                  slots := setKey (.str "p") JVal.null (CoreObject.new [("-p", JVal.num 1)]).slots }
    ∧ CoreObject.unset (CoreObject.new [("p", JVal.num 1)]) (.str "p")
        = .error .invalidCall
    ∧ CoreObject.unset (CoreObject.new []) (.str "p")
        = .error .unknownProperty := by
  refine ⟨?_, ?_, ?_⟩
  · exact (c10_unset_guard (CoreObject.new [("-p", JVal.num 1)]) (.str "p")).2.2 rfl rfl
  · exact (c10_unset_guard (CoreObject.new [("p", JVal.num 1)]) (.str "p")).2.1 rfl rfl
  · exact (c10_unset_guard (CoreObject.new []) (.str "p")).1 rfl

/-! ## Component: event dispatch and behaviors

From `Component` (event registry `_events`, `on`/`off`/`trigger`,
behavior registry `_behaviors`) and `framework/base/Behavior.ts` /
`framework/base/Event.ts`. Handlers are identified by reference (`id`) and
their effect on the mutable event object is a function on event values. -/

/-- The `Event` value: name, sender, handled flag and merged data. -/
structure Ev where
  name : String
  sender : JVal
  handled : Bool
  data : JVal

/-- `new Event()` defaults. -/
def Ev.new : Ev := ⟨"", JVal.null, false, JVal.null⟩

/-- An event handler: its JS function identity and its effect on the event
object it is invoked with (the code awaits `callback.call(null, event)` and
ignores the return value; mutation of `event` is the observable effect). -/
structure HandlerV where
  id : Nat
  fn : Ev → Ev

/-- The `_events` registry: event name to ordered (handler, data) pairs. -/
abbrev EventsMap := List (String × List (HandlerV × JVal))

/-- `Component.on`: create the empty list for a fresh name, then push
(append mode) or unshift (prepend mode). -/
def Component.on (events : EventsMap) (name : String) (handler : HandlerV)
    (data : JVal) (append : Bool) : EventsMap :=
  let cur := (lookupKey name events).getD []
  setKey name (if append then cur ++ [(handler, data)] else (handler, data) :: cur) events

/-- Remove the first pair whose handler is reference-equal to `h`; `none`
when no pair matches. The source deletes the array slot and immediately
compacts with `Object.values`, returning after the first removal, so only
the first match is removed. -/
def removeFirstHandler (h : Nat) : List (HandlerV × JVal) → Option (List (HandlerV × JVal))
  | [] => none
  | (g, d) :: rest =>
    if g.id = h then some rest
    else (removeFirstHandler h rest).map (fun r => (g, d) :: r)

/-- `Component.off`: false when the name has no entry; a null handler
removes the whole entry; otherwise detach the first matching handler. -/
def Component.off (events : EventsMap) (name : String) (handler : Option Nat) :
    EventsMap × Bool :=
  match lookupKey name events with
  | none => (events, false)
  | some lst =>
    match handler with
    | none => (removeKey name events, true)
    | some h =>
      match removeFirstHandler h lst with
      | some lst' => (setKey name lst' events, true)
      | none => (events, false)

/-- Own enumerable fields a spread `{...v}` copies: the fields of a plain
object; host objects and primitives contribute none in this model. -/
def spreadFields : JVal → List (String × JVal)
  | .obj fs => fs
  | _ => []

/-- Object spread `{...base, ...over}`. -/
def spreadMerge (base over : List (String × JVal)) : List (String × JVal) :=
  over.foldl (fun acc kv => setKey kv.1 kv.2 acc) base

/-- The per-handler data merge inside `trigger`: when the registration data
is an object and the event data is an object or falsy, spread both with the
event data taking precedence; otherwise `event.data = event.data || data`. -/
def mergeEventData (d : JVal) (ed : JVal) : JVal :=
  if jsIsObject d && (jsIsObject ed || !jsTruthy ed) then
    JVal.obj (spreadMerge (spreadFields d)
      (spreadFields (if jsTruthy ed then ed else JVal.obj [])))
  else if jsTruthy ed then ed else d

/-- The dispatch loop of `trigger`: merge data, invoke the handler, stop as
soon as the event is flagged handled. Besides the final event value it
returns the ghost trace of invoked handler identities, which records the
invocation order. -/
def triggerLoop : List (HandlerV × JVal) → Ev → Ev × List Nat
  | [], ev => (ev, [])
  | (h, d) :: rest, ev =>
    let ev1 := { ev with data := mergeEventData d ev.data }
    let ev2 := h.fn ev1
    if ev2.handled then (ev2, [h.id])
    else
      let r := triggerLoop rest ev2
      (r.1, h.id :: r.2)

/-- `Component.trigger`: return untouched when the name has no handler
entry; otherwise default the event, clear its handled flag, set its name and
run the dispatch loop. -/
def Component.trigger (events : EventsMap) (name : String) (event : Option Ev) :
    Option Ev × List Nat :=
  match lookupKey name events with
  | none => (event, [])
  | some handlers =>
    let ev0 := event.getD Ev.new
    let r := triggerLoop handlers { ev0 with handled := false, name := name }
    (some r.1, r.2)

/-- A behavior: identity, current owner component, the handler map declared
by `events()` and the handlers currently attached to the owner. -/
structure BehaviorV where
  id : Nat
  owner : Option Nat
  eventsDecl : List (String × HandlerV)
  attachedEvents : List (String × HandlerV)

/-- A component as far as behaviors are concerned: its event registry and
its `_behaviors` map. -/
structure ComponentState where
  events : EventsMap
  behaviors : List (String × BehaviorV)

/-- `Behavior.attach`: set the owner, then record and subscribe every
declared handler onto the owner (append mode, null data). -/
def Behavior.attach (cid : Nat) (b : BehaviorV) (c : ComponentState) :
    BehaviorV × ComponentState :=
  b.eventsDecl.foldl
    (fun acc eh =>
      ({ acc.1 with attachedEvents := setKey eh.1 eh.2 acc.1.attachedEvents },
       { acc.2 with events := Component.on acc.2.events eh.1 eh.2 JVal.null true }))
    ({ b with owner := some cid }, c)

/-- `Behavior.detach`: when owned, unsubscribe every attached handler from
the owner, clear the attached map and the owner. -/
def Behavior.detach (b : BehaviorV) (c : ComponentState) : BehaviorV × ComponentState :=
  match b.owner with
  | none => (b, c)
  | some _ =>
    let c' := b.attachedEvents.foldl
      (fun cc eh => { cc with events := (Component.off cc.events eh.1 (some eh.2.id)).1 }) c
    ({ b with attachedEvents := [], owner := none }, c')

/-- `Component.attachBehaviorInternal`: when the name is already taken the
code only detaches the existing behavior (keeping it in the map and never
attaching the new one); only for a fresh name does it attach and store the
new behavior. The returned value is the argument object, which in the fresh
branch is the attached behavior. -/
def Component.attachBehaviorInternal (cid : Nat) (c : ComponentState) (name : String)
    (behavior : BehaviorV) : ComponentState × BehaviorV :=
  match lookupKey name c.behaviors with
  | some existing =>
    let r := Behavior.detach existing c
    ({ r.2 with behaviors := setKey name r.1 r.2.behaviors }, behavior)
  | none =>
    let r := Behavior.attach cid behavior c
    ({ r.2 with behaviors := setKey name r.1 r.2.behaviors }, r.1)

/-- `Component.attachBehavior`: `ensureBehaviors` is a no-op because
`_behaviors` is initialized to `{}` and the lazy-initialization guard
compares against `null`; the call reduces to `attachBehaviorInternal`. -/
def Component.attachBehavior (cid : Nat) (c : ComponentState) (name : String)
    (behavior : BehaviorV) : ComponentState × BehaviorV :=
  Component.attachBehaviorInternal cid c name behavior

/-- `Component.getBehavior`: `Op.get(this._behaviors, name, null)`. -/
def Component.getBehavior (c : ComponentState) (name : String) : Option BehaviorV :=
  lookupKey name c.behaviors

/-! ## Claims C6 and C8 -/

/-- Claim C6: three handlers attached with `on` in append mode are invoked
by `trigger` sequentially in attachment order; if the first handler flags
the event handled, the second and third are never invoked. The trace
component of `trigger` records the invoked handler identities in invocation
order. -/
theorem c6_trigger_order (E : String) (hh1 hh2 hh3 : HandlerV) (d1 d2 d3 : JVal) :
    ((∀ e, (hh1.fn e).handled = false) → (∀ e, (hh2.fn e).handled = false) →
      (Component.trigger
        (Component.on (Component.on (Component.on [] E hh1 d1 true) E hh2 d2 true) E hh3 d3 true)
        E none).2 = [hh1.id, hh2.id, hh3.id])
    ∧ ((∀ e, (hh1.fn e).handled = true) →
      (Component.trigger
        (Component.on (Component.on (Component.on [] E hh1 d1 true) E hh2 d2 true) E hh3 d3 true)
        E none).2 = [hh1.id]) := by
  have hevs : Component.on (Component.on (Component.on [] E hh1 d1 true) E hh2 d2 true) E hh3 d3 true
      = [(E, [(hh1, d1), (hh2, d2), (hh3, d3)])] := by
    simp [Component.on, setKey, lookupKey]
  constructor
  · intro h1 h2
    rw [hevs]
    simp [Component.trigger, lookupKey, triggerLoop, h1, h2]
  · intro h1
    rw [hevs]
    simp [Component.trigger, lookupKey, triggerLoop, h1]

/-- Witness handler: leaves the handled flag cleared. -/
def c6h1 : HandlerV := ⟨1, fun e => { e with handled := false }⟩

/-- Witness handler: leaves the handled flag cleared. -/
def c6h2 : HandlerV := ⟨2, fun e => { e with handled := false }⟩

/-- Witness handler: does not touch the event. -/
def c6h3 : HandlerV := ⟨3, fun e => e⟩

/-- Witness handler: flags the event handled. -/
def c6stop : HandlerV := ⟨1, fun e => { e with handled := true }⟩

/-- Claim C6 witness: the dispatch-order theorem at concrete handlers — the
full trace [1, 2, 3] when nobody flags the event, and the short-circuited
trace [1] when the first handler does. -/
theorem c6_trigger_order_witness :
    (Component.trigger
      (Component.on (Component.on (Component.on [] "save" c6h1 JVal.null true)
        "save" c6h2 JVal.null true) "save" c6h3 JVal.null true) "save" none).2 = [1, 2, 3]
    ∧ (Component.trigger
      (Component.on (Component.on (Component.on [] "save" c6stop JVal.null true)
        "save" c6h2 JVal.null true) "save" c6h3 JVal.null true) "save" none).2 = [1] := by
  constructor
  · exact (c6_trigger_order "save" c6h1 c6h2 c6h3 JVal.null JVal.null JVal.null).1
      (fun e => rfl) (fun e => rfl)
  · exact (c6_trigger_order "save" c6stop c6h2 c6h3 JVal.null JVal.null JVal.null).2
      (fun e => rfl)

/-- The component for claim C8: a behavior with identity 1 already attached
under name "n" (owner set, no declared event handlers). -/
def c8Comp : ComponentState := ⟨[], [("n", ⟨1, some 0, [], []⟩)]⟩

/-- The replacement behavior for claim C8. -/
def c8NewBehavior : BehaviorV := ⟨2, none, [], []⟩

/-- The outcome of re-attaching under the taken name. -/
def c8Result : ComponentState × BehaviorV :=
  Component.attachBehavior 0 c8Comp "n" c8NewBehavior

/-- Claim C8: the spec says re-attaching under an existing name detaches the
old behavior and then attaches the new one, so `getBehavior` returns the new
behavior owned by the component. In the code the occupied-name branch only
detaches: afterwards `getBehavior("n")` still returns the old (now
detached) behavior 1, and the new behavior 2 was never attached (its owner
stays unset). This theorem evaluates the embedded code at that input. -/
theorem c8_reattach_never_attaches :
    (Component.getBehavior c8Result.1 "n").map BehaviorV.id = some 1
    ∧ (Component.getBehavior c8Result.1 "n").map BehaviorV.owner = some none
    ∧ c8Result.2.id = 2
    ∧ c8Result.2.owner = none := by
  exact ⟨rfl, rfl, rfl, rfl⟩

/-! ## The namespace loader boundary and the DI Container

From `src/framework/di/Container.ts` and
`src/framework/helpers/NamespaceHelper.ts`. The loader and the file system
are external collaborators; an `Env` record of oracles answers the questions
the kernel asks them. -/

/-- The boundary collaborators: whether a namespace file exists, whether the
loaded value is a constructor, whether constructing it yields a Component
instance, the synchronous-or-not flavour and the semantics of function
values (identified by reference), the value of the `namespace` getter on
instances of a class, and whether a class sits below the base Controller in
the prototype chain. -/
structure Env where
  fileFound : String → Bool
  isCtor : String → Bool
  isComponentClass : String → Bool
  funcIsSync : Nat → Bool
  funcSem : Nat → List JVal → JVal
  instNs : String → String
  isControllerSubclass : String → Bool

def isLowerAlpha (c : Char) : Bool := 'a' ≤ c && c ≤ 'z'

def isUpperAlpha (c : Char) : Bool := 'A' ≤ c && c ≤ 'Z'

def isDigitCh (c : Char) : Bool := '0' ≤ c && c ≤ '9'

/-- A character matched by the namespace-segment class [a-z\-0-9]. -/
def isLowerSegChar (c : Char) : Bool := isLowerAlpha c || c = '-' || isDigitCh c

/-- A character matched by the class-segment class [A-Za-z\-0-9]. -/
def isClassSegChar (c : Char) : Bool :=
  isUpperAlpha c || isLowerAlpha c || c = '-' || isDigitCh c

/-- A segment matched by [a-z][a-z\-0-9]+ (two or more characters). -/
def isLowerSeg (s : String) : Bool :=
  match s.data with
  | [] => false
  | c :: rest => isLowerAlpha c && !rest.isEmpty && rest.all isLowerSegChar

/-- A segment matched by [A-Z][A-Za-z\-0-9]+ (two or more characters). -/
def isClassSeg (s : String) : Bool :=
  match s.data with
  | [] => false
  | c :: rest => isUpperAlpha c && !rest.isEmpty && rest.all isClassSegChar

/-- The character-level split on `/`, matching the JS `split` with no limit
(kept on lists so that it reduces definitionally). -/
def splitSlashChars : List Char → List (List Char)
  | [] => [[]]
  | c :: rest =>
    let r := splitSlashChars rest
    if c = '/' then [] :: r
    else
      match r with
      | [] => [[c]]
      | hd :: tl => (c :: hd) :: tl

def splitSlash (s : String) : List String :=
  (splitSlashChars s.data).map (fun l => ⟨l⟩)

/-- The NAMESPACE_REGEX test of `NamespaceHelper`: one or more lowercase
segments followed by a final capitalized class segment. -/
def namespaceRegexTest (s : String) : Bool :=
  match (splitSlash s).reverse with
  | [] => false
  | last :: revInit => !revInit.isEmpty && revInit.all isLowerSeg && isClassSeg last

/-- `NamespaceHelper.isNamespace`: the regex test plus existence of the
backing file (a loader question, answered by the environment). -/
def NamespaceHelper.isNamespace (env : Env) (s : String) : Bool :=
  namespaceRegexTest s && env.fileFound s

/-- The `instanceof Component` test on a runtime value. -/
def isComponentInstance (env : Env) : JVal → Bool
  | .inst cn _ => env.isComponentClass cn
  | _ => false

/-- A normalized container definition: a config object carrying a
`namespace` field, a callable, or a Component instance. -/
inductive Definition where
  | cfg (fields : List (String × JVal))
  | func (id : Nat)
  | inst (className : String) (args : List JVal)
deriving Repr

/-- The container state: the singleton registry (key presence models the JS
`in` test, a null value is an allocated-but-unresolved slot), the definition
registry and the per-namespace constructor parameters. -/
structure ContainerState where
  singletons : List (String × JVal)
  definitions : List (String × Definition)
  params : List (String × List (String × JVal))
deriving Repr

def ContainerState.empty : ContainerState := ⟨[], [], []⟩

/-- `Container.normalizeDefinition`. Falsy definitions, strings, and any
value without own enumerable keys (functions, numbers, booleans, the empty
object) collapse to the bare marker object whose `namespace` field is the
KEY being registered — the string definition itself is discarded. Component
instances and config objects carrying a `namespace` field are kept;
remaining objects raise InvalidConfig. -/
def Container.normalizeDefinition (env : Env) (namespace_ : String) (definition : JVal) :
    Except Exc Definition :=
  if !jsTruthy definition || definition.isStr || jsKeysCount definition = 0 then
    .ok (.cfg [("namespace", JVal.str namespace_)])
  else if isActualFunction definition then
    match definition with
    | .closure fid => .ok (.func fid)
    | _ => .error .invalidConfig
  else if isComponentInstance env definition then
    match definition with
    | .inst cn args => .ok (.inst cn args)
    | _ => .error .invalidConfig
  else
    match definition with
    | .obj fields =>
      if hasKey "namespace" fields then .ok (.cfg fields)
      else .error .invalidConfig
    | _ => .error .invalidConfig

/-- `Container.set`: store the normalized definition and the parameters and
delete any cached singleton for the key. -/
def Container.set (env : Env) (st : ContainerState) (namespace_ : String)
    (definition : JVal) (params : List (String × JVal)) : Except Exc ContainerState := do
  let d ← Container.normalizeDefinition env namespace_ definition
  .ok { definitions := setKey namespace_ d st.definitions,
        params := setKey namespace_ params st.params,
        singletons := removeKey namespace_ st.singletons }

/-- `Container.setSingleton`: like `set` but the singleton slot for the key
is assigned null (allocated, unresolved). -/
def Container.setSingleton (env : Env) (st : ContainerState) (namespace_ : String)
    (definition : JVal) (params : List (String × JVal)) : Except Exc ContainerState := do
  let d ← Container.normalizeDefinition env namespace_ definition
  .ok { definitions := setKey namespace_ d st.definitions,
        params := setKey namespace_ params st.params,
        singletons := setKey namespace_ JVal.null st.singletons }

/-- `Container.splitConfigList`: more than one element gives (initial
elements, last element); zero elements reads index 0 of an empty array
(undefined); exactly one element leaves the defaults — an empty args list
and an empty params object — so the single element is dropped. -/
def Container.splitConfigList (configuration : List JVal) : List JVal × JVal :=
  if configuration.length > 1 then
    (configuration.take (configuration.length - 1), configuration.getLast?.getD JVal.undef)
  else if configuration.length = 0 then
    ([], JVal.undef)
  else
    ([], JVal.obj [])

/-- The recursive object merge of the external `merge` package
(`recursive(true, base, override)`): override keys win, plain objects merge
field-wise recursively. The fuel bounds the recursion depth by the sizes of
the values, which the nesting depth never exceeds. -/
def deepMergeF : Nat → JVal → JVal → JVal
  | 0, _, b => b
  | n + 1, .obj xs, .obj ys =>
    .obj (ys.foldl (fun acc kv =>
      match lookupKey kv.1 acc with
      | some w => setKey kv.1 (deepMergeF n w kv.2) acc
      | none => acc ++ [kv]) xs)
  | _ + 1, _, b => b

mutual

/-- Structural size of a JS value, bounding the nesting depth. -/
def jsize : JVal → Nat
  | .obj fields => 1 + jsizeL fields
  | _ => 1

def jsizeL : List (String × JVal) → Nat
  | [] => 0
  | kv :: rest => 1 + jsize kv.2 + jsizeL rest

end

def deepMerge (a b : JVal) : JVal := deepMergeF (jsize a + jsize b) a b

/-- `Container.mergeParams`: no registered parameters gives the caller
parameters; empty caller parameters give the registered ones; otherwise a
recursive merge with the caller parameters overriding. -/
def Container.mergeParams (st : ContainerState) (namespace_ : String) (params : JVal) : JVal :=
  match lookupKey namespace_ st.params with
  | none => params
  | some registered =>
    if jsKeysCount params = 0 then JVal.obj registered
    else deepMerge (JVal.obj registered) params

/-- `Container.invoke`: reject asynchronous callables with InvalidConfig,
otherwise apply the callable to the configuration. -/
def Container.invoke (env : Env) (fid : Nat) (configuration : List JVal) : Except Exc JVal :=
  if !env.funcIsSync fid then .error .invalidConfig
  else .ok (env.funcSem fid configuration)

/-- `Container.build`: the namespace must pass `isNamespace`, load to a
constructor, and construct a Component instance; otherwise
NotInstantiable. Construction records the class and the argument list. -/
def Container.build (env : Env) (namespace_ : String) (configuration : List JVal) :
    Except Exc JVal :=
  if !NamespaceHelper.isNamespace env namespace_ then .error .notInstantiable
  else if !env.isCtor namespace_ then .error .notInstantiable
  else if !env.isComponentClass namespace_ then .error .notInstantiable
  else .ok (JVal.inst namespace_ configuration)

/-- The post-resolution singleton refill
(`if (namespace in singletons) singletons[namespace] = component`). -/
def finishGet (st : ContainerState) (namespace_ : String) (component : JVal) :
    ContainerState × JVal :=
  if hasKey namespace_ st.singletons then
    ({ st with singletons := setKey namespace_ component st.singletons }, component)
  else (st, component)

/-- `Container.get`. A key present in the singleton registry returns the
stored value at once — including the null placeholder `setSingleton`
installed. A key with no definition falls back to `build` on the original
configuration. A callable definition is invoked and must yield a Component
instance. A config-object definition reads its `namespace` field, merges
parameters, and either builds directly (self reference) or recurses; a
stored Component instance is still an object to `R_is(Object, _)`, so it
takes the same path through its `namespace` getter, making the dedicated
instanceof branch of the source unreachable. The fuel models divergence of
cyclic alias chains; a non-string `namespace` field leaves the modelled
fragment and maps to InvalidConfig (neither is reached in this file). -/
def Container.get (env : Env) (fuel : Nat) (st : ContainerState) (namespace_ : String)
    (configuration : List JVal) : Except Exc (ContainerState × JVal) :=
  match fuel with
  | 0 => .error .outOfFuel
  | fuel + 1 =>
    let ap := Container.splitConfigList configuration
    if hasKey namespace_ st.singletons then
      .ok (st, (lookupKey namespace_ st.singletons).getD JVal.undef)
    else if !hasKey namespace_ st.definitions then
      (Container.build env namespace_ configuration).map (fun v => (st, v))
    else
      match (lookupKey namespace_ st.definitions).getD (.cfg []) with
      | .func fid => do
        let component ← Container.invoke env fid configuration
        if !jsIsObject component || !isComponentInstance env component then
          .error .notInstantiable
        else
          .ok (finishGet st namespace_ component)
      | .cfg fields =>
        match lookupKey "namespace" fields with
        | some (JVal.str concrete) =>
          let newParams := Container.mergeParams st namespace_ ap.2
          if concrete = namespace_ then
            (Container.build env concrete (ap.1 ++ [newParams])).map
              (fun v => finishGet st namespace_ v)
          else do
            let r ← Container.get env fuel st concrete (ap.1 ++ [newParams])
            .ok (finishGet r.1 namespace_ r.2)
        | _ => .error .invalidConfig
      | .inst cn _ =>
        let concrete := env.instNs cn
        let newParams := Container.mergeParams st namespace_ ap.2
        if concrete = namespace_ then
          (Container.build env concrete (ap.1 ++ [newParams])).map
            (fun v => finishGet st namespace_ v)
        else do
          let r ← Container.get env fuel st concrete (ap.1 ++ [newParams])
          .ok (finishGet r.1 namespace_ r.2)

/-! ## Claims C1, C2, C9 -/

/-- A loader environment on which nothing exists: no file is found, nothing
constructs, all callables are inert. -/
def envNone : Env :=
  ⟨fun _ => false, fun _ => false, fun _ => false, fun _ => false,
   fun _ _ => JVal.undef, fun s => s, fun _ => false⟩

/-- The container state after `setSingleton("app/Thing", null)`: the
definition collapses to the bare marker and the singleton slot holds the
null placeholder. -/
def c1State : ContainerState :=
  ⟨[("app/Thing", JVal.null)],
   [("app/Thing", .cfg [("namespace", JVal.str "app/Thing")])],
   [("app/Thing", [])]⟩

/-- Claim C1: the spec says the first `get` on a namespace registered via
`setSingleton` resolves the definition to a component instance and caches
it. In the code `setSingleton` installs a null placeholder and `get` tests
the singleton registry with the JS `in` operator, which is true for the
placeholder — so every `get`, first included, returns null and the
definition is never resolved. This theorem evaluates the embedded code at
that input: registration succeeds, and `get` returns the null placeholder
with the state unchanged. -/
theorem c1_singleton_get_returns_placeholder :
    Container.setSingleton envNone ContainerState.empty "app/Thing" JVal.null [] = .ok c1State
    ∧ Container.get envNone 9 c1State "app/Thing" [JVal.obj []] = .ok (c1State, JVal.null) := by
  exact ⟨rfl, rfl⟩

/-- The claim C2 scenario: register alias "a" to "b", overwrite with "c",
then resolve "a". -/
def c2Chain : Except Exc (ContainerState × JVal) := do
  let s1 ← Container.set envNone ContainerState.empty "a" (JVal.str "b") []
  let s2 ← Container.set envNone s1 "a" (JVal.str "c") []
  Container.get envNone 9 s2 "a" [JVal.obj []]

/-- Claim C2: the spec says `get("a")` after `set("a", "b")` and
`set("a", "c")` resolves against the latest definition "c". In the code
`normalizeDefinition` discards a string definition and stores the marker
object whose `namespace` field is the KEY "a", so `get("a")` self-resolves
to building "a" itself — here failing the namespace test with
NotInstantiable — and the type "c" is never consulted. -/
theorem c2_string_definition_discarded :
    Container.normalizeDefinition envNone "a" (JVal.str "c")
        = .ok (.cfg [("namespace", JVal.str "a")])
    ∧ c2Chain = .error .notInstantiable := by
  exact ⟨rfl, rfl⟩

/-- Claim C9: the spec says the last element of every non-empty argument
list is the config bag. In the code the one-element case matches neither
branch of `splitConfigList` (the second branch tests for length zero, where
it reads index 0 of an empty array), so a one-element list is dropped
entirely and the config bag stays empty; only lists of two or more elements
split as specified. -/
theorem c9_splitConfigList_single_dropped :
    Container.splitConfigList [JVal.str "x"] = ([], JVal.obj [])
    ∧ Container.splitConfigList [JVal.str "y", JVal.str "x"]
        = ([JVal.str "y"], JVal.str "x")
    ∧ Container.splitConfigList [] = ([], JVal.undef) := by
  exact ⟨rfl, rfl, rfl⟩

/-! ## BaseApp.createObject and the ServiceLocator

From `BaseApp.createObject` and the ServiceLocator source unit. The global
container is threaded explicitly as `gc`. -/

/-- `App.createObject`: a string resolves through the global container; a
callable is invoked through the container; an object must carry a
`namespace` field, which is deleted from it, and when the last configuration
element is key-free the remaining fields are appended as the config bag
before resolving the namespace; everything else raises InvalidConfig
(passing a class instance as the type is not reached in this development). -/
def App.createObject (env : Env) (fuel : Nat) (gc : ContainerState) (type : JVal)
    (configuration : List JVal) : Except Exc (ContainerState × JVal) :=
  match type with
  | .str s => Container.get env fuel gc s configuration
  | .closure fid =>
    (Container.invoke env fid configuration).map (fun v => (gc, v))
  | .obj fields =>
    if hasKey "namespace" fields then
      match lookupKey "namespace" fields with
      | some (JVal.str ns) =>
        let type' := removeKey "namespace" fields
        let lastCfg := configuration.getLast?.getD (JVal.obj [])
        let configuration' :=
          if jsKeysCount lastCfg = 0 then
            configuration.take (configuration.length - 1) ++ [JVal.obj type']
          else configuration
        Container.get env fuel gc ns configuration'
      | _ => .error .invalidConfig
    else .error .invalidConfig
  | _ => .error .invalidConfig

/-- A stored ServiceLocator definition: after `set`, either a resolved
Component instance (instance and sync-callable registrations) or a config
object carrying a `namespace` field (string and object registrations). -/
inductive SLDef where
  | instD (v : JVal)
  | cfgD (fields : List (String × JVal))
deriving Repr

/-- The locator state: resolved shared instances and pending definitions,
both keyed by string-or-symbol IDs. -/
structure SLState where
  components : List (PropName × JVal)
  definitions : List (PropName × SLDef)
deriving Repr

def SLState.empty : SLState := ⟨[], []⟩

/-- `ServiceLocator.set`: drop any resolved instance for the ID; a null
definition deletes the pending definition and then still falls through the
shape checks, which reject it; a namespace string is wrapped into a config
object; a Component instance is stored as is; a sync callable is invoked at
once and must return a Component instance; an object must carry a
`namespace` field; all remaining shapes raise InvalidConfig. -/
def ServiceLocator.set (env : Env) (st : SLState) (id : PropName) (definition : JVal) :
    Except Exc SLState :=
  let st1 : SLState := { st with components := removeKey id st.components }
  let st2 : SLState :=
    match definition with
    | .null => { st1 with definitions := removeKey id st1.definitions }
    | _ => st1
  match definition with
  | .str s =>
    if NamespaceHelper.isNamespace env s then
      .ok { st2 with
        definitions := setKey id (.cfgD [("namespace", JVal.str s)]) st2.definitions }
    else .error .invalidConfig
  | .closure fid =>
    if env.funcIsSync fid then
      let inst0 := env.funcSem fid []
      if isComponentInstance env inst0 then
        .ok { st2 with definitions := setKey id (.instD inst0) st2.definitions }
      else .error .invalidConfig
    else .error .invalidConfig
  | .inst _ _ =>
    if isComponentInstance env definition then
      .ok { st2 with definitions := setKey id (.instD definition) st2.definitions }
    else .error .invalidConfig
  | .obj fields =>
    if hasKey "namespace" fields then
      .ok { st2 with definitions := setKey id (.cfgD fields) st2.definitions }
    else .error .invalidConfig
  | _ => .error .invalidConfig

/-- `ServiceLocator.get`: a resolved instance is returned as is; an instance
definition moves to the instance registry; for a STRING id a config
definition is resolved through `App.createObject` (which deletes the
`namespace` field from the stored definition object — aliasing the model
makes explicit) and the result is cached; a SYMBOL id with a config
definition matches neither resolution branch and falls through to the
unregistered outcome: InvalidConfig when `throwException`, null
otherwise. -/
def ServiceLocator.get (env : Env) (fuel : Nat) (gc : ContainerState) (st : SLState)
    (id : PropName) (throwException : Bool) :
    Except Exc (ContainerState × SLState × JVal) :=
  match lookupKey id st.components with
  | some c => .ok (gc, st, c)
  | none =>
    match lookupKey id st.definitions with
    | some (.instD v) =>
      .ok (gc, { st with definitions := removeKey id st.definitions,
                         components := setKey id v st.components }, v)
    | some (.cfgD fields) =>
      match id with
      | .str s => do
        let r ← App.createObject env fuel gc (JVal.obj fields) [JVal.obj []]
        .ok (r.1, { st with
              definitions := setKey (PropName.str s)
                (SLDef.cfgD (removeKey "namespace" fields)) st.definitions,
              components := setKey (PropName.str s) r.2 st.components }, r.2)
      | .sym _ =>
        if throwException then .error .invalidConfig else .ok (gc, st, JVal.null)
    | none =>
      if throwException then .error .invalidConfig else .ok (gc, st, JVal.null)

/-! ## Claim C7 -/

/-- A loader environment on which exactly `framework/base/Component` exists,
constructs, and is a Component class. -/
def envComp : Env :=
  ⟨fun s => decide (s = "framework/base/Component"),
   fun s => decide (s = "framework/base/Component"),
   fun s => decide (s = "framework/base/Component"),
   fun _ => false, fun _ _ => JVal.undef, fun s => s, fun _ => false⟩

/-- The locator state after registering the namespace string under a symbol
ID. -/
def c7SymState : SLState :=
  ⟨[], [(.sym 0, .cfgD [("namespace", JVal.str "framework/base/Component")])]⟩

/-- Claim C7 counterexample: the claim covers every string-or-symbol ID
registered with a valid definition, but a symbol ID registered with a valid
namespace-string definition is accepted by `set` and then never resolved by
`get`, which treats it like an unregistered ID (InvalidConfig or null). -/
theorem c7_counterexample :
    ServiceLocator.set envComp SLState.empty (.sym 0)
        (JVal.str "framework/base/Component") = .ok c7SymState
    ∧ ServiceLocator.get envComp 9 ContainerState.empty c7SymState (.sym 0) true
        = .error .invalidConfig
    ∧ ServiceLocator.get envComp 9 ContainerState.empty c7SymState (.sym 0) false
        = .ok (ContainerState.empty, c7SymState, JVal.null) := by
  exact ⟨rfl, rfl, rfl⟩

/-- Claim C7 (amended): ServiceLocator resolution and caching — a cached
instance is returned unchanged forever (no re-resolution); an instance
definition is cached and its definition slot deleted; a config definition
under a STRING id resolves through the object-creation entry point and is
cached; a SYMBOL id with a config definition behaves like an unregistered
ID, as does a fully unregistered ID: InvalidConfig when `throwException` is
true, null otherwise. -/
theorem c7_locator_caching :
    (∀ (env : Env) (fuel : Nat) (gc : ContainerState) (st : SLState) (id : PropName)
        (te : Bool) (c : JVal), lookupKey id st.components = some c →
      ServiceLocator.get env fuel gc st id te = .ok (gc, st, c))
    ∧ (∀ (env : Env) (fuel : Nat) (gc : ContainerState) (st : SLState) (id : PropName)
        (te : Bool) (v : JVal),
      lookupKey id st.components = none →
      lookupKey id st.definitions = some (.instD v) →
      ServiceLocator.get env fuel gc st id te
        = .ok (gc, { st with definitions := removeKey id st.definitions,
                             components := setKey id v st.components }, v))
    ∧ (∀ (env : Env) (fuel : Nat) (gc : ContainerState) (st : SLState) (s : String)
        (te : Bool) (fields : List (String × JVal)) (gc' : ContainerState) (v : JVal),
      lookupKey (PropName.str s) st.components = none →
      lookupKey (PropName.str s) st.definitions = some (.cfgD fields) →
      App.createObject env fuel gc (JVal.obj fields) [JVal.obj []] = .ok (gc', v) →
      ServiceLocator.get env fuel gc st (.str s) te
        = .ok (gc', { st with
            definitions := setKey (PropName.str s)
              (SLDef.cfgD (removeKey "namespace" fields)) st.definitions,
            components := setKey (PropName.str s) v st.components }, v))
    ∧ (∀ (env : Env) (fuel : Nat) (gc : ContainerState) (st : SLState) (n : Nat)
        (fields : List (String × JVal)),
      lookupKey (PropName.sym n) st.components = none →
      lookupKey (PropName.sym n) st.definitions = some (.cfgD fields) →
      ServiceLocator.get env fuel gc st (.sym n) true = .error .invalidConfig
      ∧ ServiceLocator.get env fuel gc st (.sym n) false = .ok (gc, st, JVal.null))
    ∧ (∀ (env : Env) (fuel : Nat) (gc : ContainerState) (st : SLState) (id : PropName),
      lookupKey id st.components = none →
      lookupKey id st.definitions = none →
      ServiceLocator.get env fuel gc st id true = .error .invalidConfig
      ∧ ServiceLocator.get env fuel gc st id false = .ok (gc, st, JVal.null)) := by
  refine ⟨?_, ?_, ?_, ?_, ?_⟩
  · intro env fuel gc st id te c h1
    simp [ServiceLocator.get, h1]
  · intro env fuel gc st id te v h1 h2
    simp [ServiceLocator.get, h1, h2]
  · intro env fuel gc st s te fields gc' v h1 h2 h3
    simp [ServiceLocator.get, h1, h2, h3]
    rfl
  · intro env fuel gc st n fields h1 h2
    constructor <;> simp [ServiceLocator.get, h1, h2]
  · intro env fuel gc st id h1 h2
    constructor <;> simp [ServiceLocator.get, h1, h2]

/-- A concrete resolved Component instance for the claim C7 witness. -/
def c7inst : JVal := JVal.inst "framework/base/Component" []

/-- Claim C7 witness: the caching theorem at concrete locator states — a
cached instance is returned as is; an instance definition is cached; a
string config definition resolves and caches the built instance; the symbol
config definition and an unregistered ID raise InvalidConfig. -/
theorem c7_locator_caching_witness :
    ServiceLocator.get envComp 9 ContainerState.empty
        ⟨[(.str "db", c7inst)], []⟩ (.str "db") true
      = .ok (ContainerState.empty, ⟨[(.str "db", c7inst)], []⟩, c7inst)
    ∧ ServiceLocator.get envComp 9 ContainerState.empty
        ⟨[], [(.str "db", .instD c7inst)]⟩ (.str "db") true
      = .ok (ContainerState.empty, ⟨[(.str "db", c7inst)], []⟩, c7inst)
    ∧ ServiceLocator.get envComp 9 ContainerState.empty
        ⟨[], [(.str "db", .cfgD [("namespace", JVal.str "framework/base/Component")])]⟩
        (.str "db") true
      = .ok (ContainerState.empty,
          ⟨[(.str "db", JVal.inst "framework/base/Component" [JVal.obj []])],
           [(.str "db", .cfgD [])]⟩,
          JVal.inst "framework/base/Component" [JVal.obj []])
    ∧ ServiceLocator.get envComp 9 ContainerState.empty c7SymState (.sym 0) true
        = .error .invalidConfig
    ∧ ServiceLocator.get envComp 9 ContainerState.empty SLState.empty (.str "nope") true
        = .error .invalidConfig := by
  refine ⟨?_, ?_, ?_, ?_, ?_⟩
  · exact c7_locator_caching.1 envComp 9 ContainerState.empty _ _ true c7inst rfl
  · exact c7_locator_caching.2.1 envComp 9 ContainerState.empty _ _ true c7inst rfl rfl
  · exact c7_locator_caching.2.2.1 envComp 9 ContainerState.empty _ "db" true
      [("namespace", JVal.str "framework/base/Component")] ContainerState.empty
      (JVal.inst "framework/base/Component" [JVal.obj []]) rfl rfl rfl
  · exact (c7_locator_caching.2.2.2.1 envComp 9 ContainerState.empty c7SymState 0
      [("namespace", JVal.str "framework/base/Component")] rfl rfl).1
  · exact (c7_locator_caching.2.2.2.2 envComp 9 ContainerState.empty SLState.empty
      (.str "nope") rfl rfl).1

/-! ## Module route resolution

From `src/framework/base/Module.ts` (`createController`,
`createControllerByID`, the class-name checks) together with the
StringHelper and NamespaceHelper routines they call. Child modules are
modelled as already-loaded module trees; loading a pending child
configuration goes through the DI container and is not reached by the
scenario verified here. -/

/-- JS `String.trim()` on both ends. -/
def strTrimWs (s : String) : String :=
  ⟨((s.data.dropWhile Char.isWhitespace).reverse.dropWhile Char.isWhitespace).reverse⟩

/-- `StringHelper.trim(s, "/")`: strip leading and trailing slashes. -/
def trimSlashes (s : String) : String :=
  ⟨((s.data.dropWhile (fun c => c = '/')).reverse.dropWhile (fun c => c = '/')).reverse⟩

/-- `StringHelper.ltrim(s, "/")`: strip leading slashes. -/
def ltrimSlash (s : String) : String :=
  ⟨s.data.dropWhile (fun c => c = '/')⟩

/-- `strpos(s, c) !== false` for a single character. -/
def strContainsChar (s : String) (c : Char) : Bool :=
  s.data.contains c

/-- Join segments back with slashes (inverse of `splitSlash`). -/
def joinSlash : List String → String
  | [] => ""
  | [s] => s
  | s :: rest => s ++ "/" ++ joinSlash rest

/-- `StringHelper.ucFirst`. -/
def ucFirstStr (s : String) : String :=
  match s.data with
  | [] => ""
  | c :: rest => ⟨c.toUpper :: rest⟩

/-- The hyphen-joining replace of `routeToClassName`: a hyphen followed by a
character of the (case-insensitive) class [a-z0-9_] is replaced by that
character uppercased. -/
def hyphenJoin : List Char → List Char
  | [] => []
  | '-' :: c :: rest =>
    if isLowerAlpha c || isUpperAlpha c || isDigitCh c || c = '_' then
      c.toUpper :: hyphenJoin rest
    else '-' :: hyphenJoin (c :: rest)
  | c :: rest => c :: hyphenJoin rest

/-- `NamespaceHelper.routeToClassName`: capitalize and PascalCase-join the
hyphen-separated words. -/
def NamespaceHelper.routeToClassName (route : String) : String :=
  ⟨hyphenJoin (ucFirstStr route).data⟩

/-- `NamespaceHelper.isSubclassOf` specialized to the one target Module
passes (`framework/base/Controller`): both namespaces must load, and the
environment answers the prototype-chain question. -/
def NamespaceHelper.isSubclassOfController (env : Env) (source : String) : Bool :=
  NamespaceHelper.isNamespace env source
    && NamespaceHelper.isNamespace env "framework/base/Controller"
    && env.isControllerSubclass source

/-- A character of the controller-id class [a-z0-9/\-_]. -/
def isCtrlIdChar (c : Char) : Bool :=
  isLowerAlpha c || isDigitCh c || c = '/' || c = '-' || c = '_'

/-- The controller-id test [a-z][a-z0-9/\-_]* (anchored). -/
def ctrlIdRegex (s : String) : Bool :=
  match s.data with
  | [] => false
  | c :: rest => isLowerAlpha c && rest.all isCtrlIdChar

/-- A character of the case-insensitive class [a-z0-9_/]. -/
def isPfxPathChar (c : Char) : Bool :=
  isLowerAlpha c || isUpperAlpha c || isDigitCh c || c = '_' || c = '/'

/-- The anchored [a-z0-9_/]+ test (with the i flag). -/
def pfxPathRegex (s : String) : Bool :=
  !s.data.isEmpty && s.data.all isPfxPathChar

/-- The class-name/path validity check of Module: the class segment must
match the controller-id pattern, and a non-blank path part must match the
path pattern. -/
def Module.isIncorrectClassNameOrPath (className pathPart : String) : Bool :=
  if !ctrlIdRegex className then true
  else if !(strTrimWs pathPart).isEmpty && !pfxPathRegex pathPart then true
  else false

/-- A module node: controller map, controller namespace, default route and
its (loaded) child modules. -/
inductive ModuleTree where
  | mk (controllerMap : List (String × JVal)) (controllerNamespace : Option String)
      (defaultRoute : String) (modules : List (String × ModuleTree))

def ModuleTree.controllerMap : ModuleTree → List (String × JVal)
  | .mk cm _ _ _ => cm

def ModuleTree.controllerNamespace : ModuleTree → Option String
  | .mk _ cns _ _ => cns

def ModuleTree.defaultRoute : ModuleTree → String
  | .mk _ _ dr _ => dr

def ModuleTree.modules : ModuleTree → List (String × ModuleTree)
  | .mk _ _ _ ms => ms

/-- `Module.createControllerByID`: split the id on its LAST slash into a
path part (kept with its trailing slash) and a class segment; reject ids
failing the validity patterns; build the class name by PascalCasing the
segment, suffixing `Controller` and prefixing the controller namespace and
the path part; reject a computed name containing a hyphen or not loading as
a namespace; require the class to subclass the base Controller; construct it
through the object-creation entry point and require the namespace getter of
the instance to equal the computed class name. A `none` result is the null
return of the source. -/
def Module.createControllerByID (env : Env) (fuel : Nat) (gc : ContainerState)
    (m : ModuleTree) (id : String) : Except Exc (ContainerState × Option JVal) :=
  let segs := splitSlash id
  let pathPart := if segs.length = 1 then "" else joinSlash segs.dropLast ++ "/"
  let className := segs.getLast?.getD ""
  if Module.isIncorrectClassNameOrPath className pathPart then .ok (gc, none)
  else
    let cn1 := NamespaceHelper.routeToClassName className ++ "Controller"
    let cn2 := ltrimSlash ((m.controllerNamespace.getD "") ++ "/" ++ pathPart ++ cn1)
    if strContainsChar cn2 '-' || !NamespaceHelper.isNamespace env cn2 then .ok (gc, none)
    else if NamespaceHelper.isSubclassOfController env cn2 then do
      let r ← App.createObject env fuel gc (JVal.str cn2)
        [JVal.str id, JVal.hostObj "module", JVal.obj []]
      let instNamespace := match r.2 with
        | .inst cn _ => env.instNs cn
        | _ => ""
      if instNamespace = cn2 then .ok (r.1, some r.2) else .ok (r.1, none)
    else .ok (gc, none)

/-- `Module.createController`. An all-whitespace route falls back to the
default route; slashes are stripped from both ends; a route containing a
slash is split by the JS `split("/", 2)`, whose limit TRUNCATES: only the
first two segments survive, so for `a/b/c` the id is `a` and the remaining
route is `b` — the third segment is dropped. Resolution then tries the
controller map, a registered child module (recursing with the remaining
route), and finally the controller-id paths: the remainder is re-split on
its LAST slash, `createControllerByID` is tried on the extended id, and on
failure retried with the remainder re-appended, clearing the action route.
`none` models the `false` return. -/
def Module.createController (env : Env) (fuel : Nat) (gc : ContainerState)
    (m : ModuleTree) (route : String) :
    Except Exc (ContainerState × Option (JVal × String)) :=
  match fuel with
  | 0 => .error .outOfFuel
  | fuel + 1 =>
    let route1 := if (strTrimWs route).isEmpty then m.defaultRoute else route
    let route2 := trimSlashes route1
    let idRest :=
      if strContainsChar route2 '/' then
        let parts := splitSlash route2
        (parts.getD 0 "", parts.getD 1 "")
      else (route2, "")
    let id := idRest.1
    let rest := idRest.2
    if hasKey id m.controllerMap then do
      let r ← App.createObject env fuel gc ((lookupKey id m.controllerMap).getD JVal.null)
        [JVal.str id, JVal.hostObj "module"]
      .ok (r.1, some (r.2, rest))
    else
      match lookupKey id m.modules with
      | some child => Module.createController env fuel gc child rest
      | none =>
        let idRoute3 :=
          if strContainsChar rest '/' then
            let rsegs := splitSlash rest
            (id ++ "/" ++ joinSlash rsegs.dropLast, rsegs.getLast?.getD "")
          else (id, rest)
        let id2 := idRoute3.1
        let route3 := idRoute3.2
        do
          let r1 ← Module.createControllerByID env fuel gc m id2
          match r1.2 with
          | some ctl => .ok (r1.1, some (ctl, route3))
          | none =>
            if !(strTrimWs route3).isEmpty then do
              let r2 ← Module.createControllerByID env fuel r1.1 m (id2 ++ "/" ++ route3)
              match r2.2 with
              | some ctl => .ok (r2.1, some (ctl, ""))
              | none => .ok (r2.1, none)
            else .ok (r1.1, none)

/-! ## Claim C3 -/

/-- A loader environment for the admin scenario: the admin UsersController
exists, constructs a Component, subclasses the base Controller, and the base
Controller file exists. -/
def envAdmin : Env :=
  ⟨fun s => decide (s = "app/modules/admin/controllers/UsersController"
      ∨ s = "framework/base/Controller"),
   fun s => decide (s = "app/modules/admin/controllers/UsersController"),
   fun s => decide (s = "app/modules/admin/controllers/UsersController"),
   fun _ => false, fun _ _ => JVal.undef, fun s => s,
   fun s => decide (s = "app/modules/admin/controllers/UsersController")⟩

/-- The registered admin child module with its own controller namespace. -/
def adminModule : ModuleTree :=
  .mk [] (some "app/modules/admin/controllers") "default" []

/-- The root module with the admin child registered under ID "admin". -/
def rootModule : ModuleTree :=
  .mk [] (some "app/controllers") "default" [("admin", adminModule)]

/-- Claim C3: the spec says resolving `admin/users/list` delegates to the
admin child module with the ENTIRE remaining route `users/list`, resolving
UsersController with action ID `list`. In the code the first split uses the
JS `split("/", 2)`, whose limit truncates instead of keeping the remainder
(unlike the PHP explode it ports): the child module receives only `users`,
the segment `list` is dropped, and the resolved controller carries the empty
action route instead of `list`. This theorem evaluates the embedded code on
that route. -/
theorem c3_route_truncated :
    Module.createController envAdmin 9 ContainerState.empty rootModule "admin/users/list"
      = .ok (ContainerState.empty,
          some (JVal.inst "app/modules/admin/controllers/UsersController"
            [JVal.str "users", JVal.hostObj "module", JVal.obj []], "")) := by
  exact rfl

end FwKernel
